import Mathlib

/-!
Shallow embedding of the sfzocr field-extraction engine
(`app/utils/validators.py` and `app/core/ocr_engine.py`).

Python strings are embedded as `List Char` (`Text`); pixel coordinates and
confidences as `ℚ` (the source uses IEEE floats only for arithmetic-free
comparisons of sums/quotients, which the exact rationals reproduce); Python
dicts as insertion-ordered association lists with in-place overwrite.
Python's `re` patterns are embedded by a small backtracking matcher (`RE`)
whose alternative/quantifier ordering mirrors `re`'s leftmost, greedy,
backtracking semantics; every quantifier occurring in the source applies to
a single-character class, so the matcher needs no general star.
-/

namespace SfzOcr

abbrev Text := List Char

def tl (s : String) : Text := s.toList

/-- Python `str.isspace` / `\s` repertoire as used by `str.strip` and the
`[\s:：]` classes of the source (ASCII whitespace plus the non-breaking and
ideographic spaces, the only non-ASCII whitespace realizable in this data). -/
def isSpaceC (c : Char) : Bool :=
  c.toNat = 32 || c.toNat = 9 || c.toNat = 10 || c.toNat = 13 ||
  c.toNat = 11 || c.toNat = 12 || c.toNat = 0xa0 || c.toNat = 0x3000

/-- `\d` (ASCII digits, the only digits occurring in this data). -/
def isDigitC (c : Char) : Bool := 48 ≤ c.toNat && c.toNat ≤ 57

/-- The separator class `[\s:：]` used after field labels. -/
def isSepC (c : Char) : Bool := isSpaceC c || c = ':' || c = '：'

/-- CJK unified ideographs `[一-鿿]`. -/
def isCJK (c : Char) : Bool := 0x4e00 ≤ c.toNat && c.toNat ≤ 0x9fff

def isUpperL (c : Char) : Bool := 65 ≤ c.toNat && c.toNat ≤ 90

def isLowerL (c : Char) : Bool := 97 ≤ c.toNat && c.toNat ≤ 122

def isLatinL (c : Char) : Bool := isUpperL c || isLowerL c

/-- `\w` (word characters): ASCII alphanumerics, underscore, and CJK
ideographs — the repertoire relevant to this program's data. -/
def isWordC (c : Char) : Bool := isDigitC c || isLatinL c || c = '_' || isCJK c

/-- Python `str.isalpha` on the repertoire at hand (Latin letters and CJK
ideographs count as alphabetic). -/
def isAlphaPy (c : Char) : Bool := isLatinL c || isCJK c

/-- `.` in a pattern: any character but a newline. -/
def nonNL (c : Char) : Bool := c ≠ '\n'

/-- Python `str.strip()`. -/
def pyStrip (cs : Text) : Text :=
  ((cs.dropWhile isSpaceC).reverse.dropWhile isSpaceC).reverse

/-- Python `str.split()` (split on whitespace runs, no empty words). -/
def pySplit (cs : Text) : List Text :=
  (cs.foldr
    (fun c acc =>
      if isSpaceC c then [] :: acc
      else
        match acc with
        | [] => [[c]]
        | w :: ws => (c :: w) :: ws)
    []).filter (· ≠ [])

/-- Substring test (`needle in haystack` on Python strings). -/
def infixOf (needle haystack : Text) : Bool :=
  match haystack with
  | [] => needle.isEmpty
  | _ :: rest => needle.isPrefixOf haystack || infixOf needle rest

/-- `str.find`: index of the first occurrence of `needle`, if any. -/
def findIdx (needle : Text) : Text → Option Nat
  | [] => if needle.isEmpty then some 0 else none
  | c :: rest =>
    if needle.isPrefixOf (c :: rest) then some 0
    else (findIdx needle rest).map (· + 1)

/-- `str.endswith`. -/
def endsWith (suffix cs : Text) : Bool := suffix.reverse.isPrefixOf cs.reverse

/-- `str.replace` of one character by another (used for `'.' → ' '`). -/
def replaceChar (old new : Char) (cs : Text) : Text :=
  cs.map (fun c => if c = old then new else c)

/-- Stable ascending sort (Python `list.sort`): insertion placing each
element after the ones already ordered before-or-equal to it. -/
def insAfterLe {α : Type} (le : α → α → Bool) (x : α) : List α → List α
  | [] => [x]
  | y :: ys => if le y x then y :: insAfterLe le x ys else x :: y :: ys

def stableSort {α : Type} (le : α → α → Bool) (l : List α) : List α :=
  l.foldl (fun acc x => insAfterLe le x acc) []

/-- Python `min(xs, key=f)`: first element with minimal key. -/
def argminBy {α : Type} (f : α → ℚ) : List α → Option α
  | [] => none
  | x :: xs =>
    (xs.foldl (fun best y => if f y < f best then y else best) x : α) |> some

end SfzOcr

namespace SfzOcr

/-! ### A backtracking matcher for the `re` patterns of the source.
`REmatches r cs` lists the suffixes left over by each way `r` can match a
prefix of `cs`, in the engine's backtracking priority order (greedy
quantifiers, left alternative first). All quantifiers are over
single-character classes, matching every pattern in the source. -/

inductive RE : Type
  /-- empty pattern -/
  | eps : RE
  /-- a literal string -/
  | lit (s : Text) : RE
  /-- a single character of a class -/
  | cls (p : Char → Bool) : RE
  /-- greedy bounded repeat `p{lo,hi}` of a class -/
  | rep (p : Char → Bool) (lo hi : Nat) : RE
  /-- greedy unbounded repeat `p{lo,}` of a class -/
  | repStar (p : Char → Bool) (lo : Nat) : RE
  /-- concatenation -/
  | seq (a b : RE) : RE
  /-- alternation (left first) -/
  | alt (a b : RE) : RE
  /-- greedy option `a?` -/
  | opt (a : RE) : RE
  /-- `$`: end of input, or just before a single trailing newline -/
  | eol : RE

/-- Length of the maximal run of `p`-characters at the head. -/
def runLen (p : Char → Bool) (cs : Text) : Nat := (cs.takeWhile p).length

/-- Suffixes `k, k-1, …, lo` dropped from `cs` (greedy order), where `k` is
capped by the available run. -/
def repSuffixes (cs : Text) (lo k : Nat) : List Text :=
  if k < lo then []
  else (List.range (k + 1 - lo)).map (fun i => cs.drop (k - i))

def REmatches : RE → Text → List Text
  | .eps, cs => [cs]
  | .lit s, cs => if s.isPrefixOf cs then [cs.drop s.length] else []
  | .cls p, cs =>
    match cs with
    | [] => []
    | c :: rest => if p c then [rest] else []
  | .rep p lo hi, cs => repSuffixes cs lo (min hi (runLen p cs))
  | .repStar p lo, cs => repSuffixes cs lo (runLen p cs)
  | .seq a b, cs => (REmatches a cs).flatMap (REmatches b)
  | .alt a b, cs => REmatches a cs ++ REmatches b cs
  | .opt a, cs => REmatches a cs ++ [cs]
  | .eol, cs => if cs = [] || cs = ['\n'] then [cs] else []

/-- `re.match(r, cs)` as a Boolean (anchored at the start). -/
def reTest (r : RE) (cs : Text) : Bool := REmatches r cs ≠ []

/-- `re.search` from start index: `(start, matched text)` of the leftmost
match, the matched text being the greedy (first) alternative. -/
def reSearchIn (r : RE) : Text → Option (Nat × Text)
  | [] =>
    match (REmatches r []).head? with
    | some _ => some (0, [])
    | none => none
  | c :: rest =>
    match (REmatches r (c :: rest)).head? with
    | some suff => some (0, (c :: rest).take ((c :: rest).length - suff.length))
    | none => (reSearchIn r rest).map (fun p => (p.1 + 1, p.2))

/-- `re.search` returning the whole matched text. -/
def reSearch (r : RE) (cs : Text) : Option Text := (reSearchIn r cs).map (·.2)

/-- `bool(re.search(r, cs))`. -/
def reSearchB (r : RE) (cs : Text) : Bool := (reSearchIn r cs).isSome

/-- Concatenation of a pattern list. -/
def cat (rs : List RE) : RE := rs.foldr .seq .eps

/-- `re.search(pre ⬝ (.+), cs)`, returning group 1: for the leftmost viable
start, the first (greediest) way of matching `pre` that leaves at least one
non-newline character; the greedy `(.+)` then takes the whole non-newline
run. -/
def searchGroupRest (pre : RE) : Text → Option Text
  | [] => (REmatches pre []).findSome? (fun c =>
      let run := c.takeWhile nonNL
      if run.isEmpty then none else some run)
  | x :: rest =>
    match (REmatches pre (x :: rest)).findSome? (fun c =>
      let run := c.takeWhile nonNL
      if run.isEmpty then none else some run) with
    | some g => some g
    | none => searchGroupRest pre rest

/-- `re.search(pre ⬝ (q+), cs)` for a character class `q`, returning group 1. -/
def searchGroupCls (pre : RE) (q : Char → Bool) : Text → Option Text
  | [] => (REmatches pre []).findSome? (fun c =>
      let run := c.takeWhile q
      if run.isEmpty then none else some run)
  | x :: rest =>
    match (REmatches pre (x :: rest)).findSome? (fun c =>
      let run := c.takeWhile q
      if run.isEmpty then none else some run) with
    | some g => some g
    | none => searchGroupCls pre q rest

/-- `re.search(pre ⬝ (q), cs)` for a single-character group, returning it. -/
def searchGroup1 (pre : RE) (q : Char → Bool) : Text → Option Char
  | [] => (REmatches pre []).findSome? (fun c =>
      match c with
      | y :: _ => if q y then some y else none
      | [] => none)
  | x :: rest =>
    match (REmatches pre (x :: rest)).findSome? (fun c =>
      match c with
      | y :: _ => if q y then some y else none
      | [] => none) with
    | some g => some g
    | none => searchGroup1 pre q rest

end SfzOcr

namespace SfzOcr

/-! ### `app/utils/validators.py`: `validate_id_number` -/

/-- `[1-9]` as a character test. -/
def isNonzeroDigit (c : Char) : Bool := 49 ≤ c.toNat && c.toNat ≤ 57

/-- The 18-character national-ID shape
`[1-9]\d{5}(19|20)\d{2}(0[1-9]|1[0-2])(0[1-9]|[12]\d|3[01])\d{3}(\d|X|x)`:
positional translation of this fixed-length, alternation-deterministic
pattern (each alternative consumes a fixed character count, so matching is
position-by-position). -/
def idShape18 (t : Text) : Bool :=
  t.length = 18 &&
  isNonzeroDigit (t.getD 0 '?') &&
  ([t.getD 1 '?', t.getD 2 '?', t.getD 3 '?', t.getD 4 '?', t.getD 5 '?'].all isDigitC) &&
  ((t.getD 6 '?' = '1' && t.getD 7 '?' = '9') ||
   (t.getD 6 '?' = '2' && t.getD 7 '?' = '0')) &&
  isDigitC (t.getD 8 '?') && isDigitC (t.getD 9 '?') &&
  ((t.getD 10 '?' = '0' && isNonzeroDigit (t.getD 11 '?')) ||
   (t.getD 10 '?' = '1' && (t.getD 11 '?' = '0' || t.getD 11 '?' = '1' || t.getD 11 '?' = '2'))) &&
  ((t.getD 12 '?' = '0' && isNonzeroDigit (t.getD 13 '?')) ||
   ((t.getD 12 '?' = '1' || t.getD 12 '?' = '2') && isDigitC (t.getD 13 '?')) ||
   (t.getD 12 '?' = '3' && (t.getD 13 '?' = '0' || t.getD 13 '?' = '1'))) &&
  ([t.getD 14 '?', t.getD 15 '?', t.getD 16 '?'].all isDigitC) &&
  (isDigitC (t.getD 17 '?') || t.getD 17 '?' = 'X' || t.getD 17 '?' = 'x')

/-- `re.match(r'^<shape>$', cs)`: the shape on the first 18 characters, the
`$` accepting end-of-string or one trailing newline. -/
def idMatch18 (cs : Text) : Bool :=
  idShape18 (cs.take 18) &&
    (cs.length = 18 || (cs.length = 19 && cs.getD 18 ' ' = '\n'))

def checksumFactors : List Nat := [7, 9, 10, 5, 8, 4, 2, 1, 6, 3, 7, 9, 10, 5, 8, 4, 2]

def checksumMap : Text := tl "10X98765432"

def digitVal (c : Char) : Nat := c.toNat - 48

/-- Weighted sum of the first 17 digits. -/
def idChecksum (cs : Text) : Nat :=
  (List.zipWith (fun c f => digitVal c * f) (cs.take 17) checksumFactors).foldl (· + ·) 0

/-- `checksum_map[checksum % 11]`. -/
def computedCheckChar (cs : Text) : Char := checksumMap.getD (idChecksum cs % 11) '?'

/-- `validate_id_number` (validators.py lines 7-39). -/
def validate_id_number (cs : Text) : Bool :=
  if cs.isEmpty then false
  else if !idMatch18 cs then false
  else (computedCheckChar cs).toUpper = (cs.getD 17 '?').toUpper

/-! ### `_is_valid_address_text` (ocr_engine.py lines 1031-1077) -/

/-- `^\d{15}$|^<18-shape>$` on the (already stripped) candidate text; the
input is stripped just above, so the `$`-before-final-newline case cannot
arise and plain end-of-string is used. -/
def idShaped15or18 (t : Text) : Bool :=
  (t.length = 15 && t.all isDigitC) || idShape18 t

/-- `^(19|20)\d{2}$`. -/
def isYearOnly : Text → Bool
  | [a, b, c, d] =>
    ((a = '1' && b = '9') || (a = '2' && b = '0')) && isDigitC c && isDigitC d
  | _ => false

/-- `^\d{1,4}号?[A-Za-z]?$`. -/
def houseNumShape (t : Text) : Bool :=
  let ds := t.takeWhile isDigitC
  let rest := t.drop ds.length
  (1 ≤ ds.length && ds.length ≤ 4) &&
  (match rest with
   | [] => true
   | ['号'] => true
   | [c] => isLatinL c
   | ['号', c] => isLatinL c
   | _ => false)

def addrKeywords5 : List Text :=
  [tl "省", tl "市", tl "区", tl "县", tl "乡", tl "镇", tl "村", tl "组",
   tl "路", tl "街", tl "道", tl "号", tl "室", tl "栋", tl "单元"]

def genderEthnicityTokens : List Text :=
  [tl "男", tl "女", tl "汉", tl "回", tl "蒙", tl "藏", tl "维", tl "苗",
   tl "彝", tl "壮", tl "满"]

def addrCharClass : Text := tl "省市区县乡镇村组路街道号室社区队栋单元巷弄里"

def is_valid_address_text (raw : Text) : Bool :=
  let t := pyStrip raw
  if idShaped15or18 t then false
  else if 10 ≤ t.length && t.all isDigitC then false
  else if infixOf (tl "公民身份号码") t || infixOf (tl "身份号码") t then false
  else if isYearOnly t then false
  else if ([tl "出生", tl "生日"].any (fun k => infixOf k t)) &&
          !(addrKeywords5.any (fun k => infixOf k t)) then false
  else if genderEthnicityTokens.any (fun g => t = g) then false
  else if t.any (fun c => addrCharClass.contains c) then true
  else if houseNumShape t && t.length ≤ 6 then true
  else false

/-! ### Text blocks and the card-type classifier -/

/-- One OCR text block as built in `extract_id_card_info` (lines 349-361):
recognized text, confidence, and the four detection-polygon points; the
centroid is the arithmetic mean of the points. -/
structure TextBlock where
  text : Text
  confidence : ℚ
  coords : List (ℚ × ℚ)
deriving DecidableEq, Repr

def centerX (b : TextBlock) : ℚ := ((b.coords.map Prod.fst).foldl (· + ·) 0) / 4

def centerY (b : TextBlock) : ℚ := ((b.coords.map Prod.snd).foldl (· + ·) 0) / 4

def center (b : TextBlock) : ℚ × ℚ := (centerX b, centerY b)

def foreignKeywords : List Text :=
  [tl "姓名/Name", tl "Name", tl "性别/Sex", tl "Sex", tl "国籍/Nationality",
   tl "Nationality", tl "Period", tl "Validity", tl "ZHENGJIAN", tl "YANGBEN",
   tl "证件样本", tl "DateofBirth", tl "Date.of Birth", tl "PeriodofValidity",
   tl "IDNO", tl "CardNo", tl "ImmigrationAdministration", tl "ssuingAuthority"]

def chineseKeywords : List Text :=
  [tl "汉族", tl "民族", tl "住址", tl "签发机关", tl "有效期限"]

def newVersionIndicators : List Text :=
  [tl "姓名/Name", tl "国籍/Nationality", tl "IDNO"]

def oldVersionIndicators : List Text :=
  [tl "Date.of Birth", tl "CardNo", tl "ImmigrationAdministration"]

def frontIndicators : List Text :=
  [tl "姓名", tl "性别", tl "民族", tl "出生", tl "住址", tl "公民身份号码"]

def backIndicators : List Text :=
  [tl "签发机关", tl "有效期限", tl "中华人民共和国"]

/-- `" ".join(all_texts)`. -/
def combinedText (blocks : List TextBlock) : Text :=
  List.intercalate (tl " ") (blocks.map (·.text))

/-- Number of vocabulary entries occurring in the combined text. -/
def keywordScore (kws : List Text) (combined : Text) : Nat :=
  (kws.filter (fun k => infixOf k combined)).length

/-- `detect_card_type` (lines 214-290). -/
def detect_card_type (blocks : List TextBlock) : Text × Bool :=
  let combined := combinedText blocks
  let foreignScore := keywordScore foreignKeywords combined
  let chineseScore := keywordScore chineseKeywords combined
  if 2 ≤ foreignScore then
    let newScore := keywordScore newVersionIndicators combined
    let oldScore := keywordScore oldVersionIndicators combined
    if oldScore ≤ newScore then (tl "foreign_new", true) else (tl "foreign_old", true)
  else if 0 < chineseScore ||
          ([tl "住址", tl "签发机关", tl "有效期限"].any (fun k => infixOf k combined)) then
    let frontScore := keywordScore frontIndicators combined
    let backScore := keywordScore backIndicators combined
    (tl "chinese", backScore ≤ frontScore)
  else (tl "chinese", true)

end SfzOcr

namespace SfzOcr

/-! ### `_is_valid_name` and `_extract_name_smart` (lines 684-781) -/

def nameExcludeWords : List Text :=
  [tl "性别", tl "民族", tl "出生", tl "住址", tl "公民", tl "身份", tl "号码",
   tl "签发", tl "机关", tl "有效", tl "期限"]

/-- `_is_valid_name`: 2-5 characters, at least 80% CJK ideographs
(`chinese_chars < len(text) * 0.8` — for the lengths 2-5 admitted here the
float comparison agrees exactly with `5 * chinese < 4 * len`), and no
excluded field-label word occurring in the text. -/
def is_valid_name (t : Text) : Bool :=
  if t.isEmpty || t.length < 2 || 5 < t.length then false
  else if 5 * (t.filter isCJK).length < 4 * t.length then false
  else if nameExcludeWords.any (fun w => infixOf w t) then false
  else true

def sepStar : RE := .repStar isSepC 0

/-- Group 1 of `姓名[\s:：]*(.+)`. -/
def nameInlineGroup (t : Text) : Option Text :=
  searchGroupRest (.seq (.lit (tl "姓名")) sepStar) t

/-- Strategy 1: inline label-plus-value in a single block. -/
def nameStrategy1 : List TextBlock → Option Text
  | [] => none
  | b :: rest =>
    let t := pyStrip b.text
    match nameInlineGroup t with
    | some g =>
      let name := pyStrip g
      if !name.isEmpty && name.length ≤ 10 then some name else nameStrategy1 rest
    | none => nameStrategy1 rest

/-- First block whose text contains the bare label. -/
def findNameLabelBlock : List TextBlock → Option TextBlock
  | [] => none
  | b :: rest =>
    let t := pyStrip b.text
    if t = tl "姓名" || infixOf (tl "姓名") t then some b
    else findNameLabelBlock rest

/-- Squared Euclidean centroid distance; the source compares the square
roots, an order-isomorphic key. -/
def sqDist (p q : ℚ × ℚ) : ℚ := (p.1 - q.1) ^ 2 + (p.2 - q.2) ^ 2

def nameSkipTokens : List Text :=
  [tl "性别", tl "民族", tl "出生", tl "住址", tl "公民身份号码"]

/-- Candidate `(block, stripped text)` pairs near the label block. -/
def nameCandidates (blocks : List TextBlock) (lb : TextBlock) :
    List (TextBlock × Text) :=
  blocks.filterMap (fun b =>
    if b = lb then none
    else
      let t := pyStrip b.text
      if nameSkipTokens.any (fun w => t = w) || 10 < t.length then none
      else if is_valid_name t then some (b, t)
      else none)

/-- Strategy 2: label-proximity — nearest valid-name block to the label
block (stable sort by distance, then the head: the first minimal). -/
def nameStrategy2 (blocks : List TextBlock) : Option Text :=
  match findNameLabelBlock blocks with
  | none => none
  | some lb =>
    (argminBy (fun c => sqDist (center c.1) (center lb))
      (nameCandidates blocks lb)).map (·.2)

def strategy3Excl : List Text :=
  [tl "性别", tl "民族", tl "出生", tl "住址", tl "公民", tl "身份", tl "号码"]

/-- Strategy 3: first block anywhere that looks like a name. -/
def nameStrategy3 : List TextBlock → Option Text
  | [] => none
  | b :: rest =>
    let t := pyStrip b.text
    if is_valid_name t && 2 ≤ t.length && t.length ≤ 5 &&
       !(strategy3Excl.any (fun w => t = w)) then some t
    else nameStrategy3 rest

/-- `_extract_name_smart` (lines 684-756). -/
def extract_name_smart (blocks : List TextBlock) : Option Text :=
  match nameStrategy1 blocks with
  | some n => some n
  | none =>
    match nameStrategy2 blocks with
    | some n => some n
    | none => nameStrategy3 blocks

/-! ### `_extract_id_number` (lines 783-827) -/

/-- Unanchored `re.search` for the fixed-length 18-character shape: the
leftmost position whose next 18 characters satisfy it. -/
def findIdPattern : Text → Option Text
  | [] => none
  | c :: rest =>
    if idShape18 ((c :: rest).take 18) then some ((c :: rest).take 18)
    else findIdPattern rest

/-- Scan other blocks whose vertical centroid is within 50px of the
labelled block. -/
def nearbyIdSearch (b : TextBlock) : List TextBlock → Option Text
  | [] => none
  | ob :: rest =>
    if ob = b then nearbyIdSearch b rest
    else if |centerY ob - centerY b| < 50 then
      match findIdPattern (pyStrip ob.text) with
      | some r => some r
      | none => nearbyIdSearch b rest
    else nearbyIdSearch b rest

/-- First pass: blocks carrying the citizen-ID label, same-block first,
then 50px-near blocks; on failure the outer loop continues with later
labelled blocks. -/
def labelledIdPass (all : List TextBlock) : List TextBlock → Option Text
  | [] => none
  | b :: rest =>
    let t := pyStrip b.text
    if infixOf (tl "公民身份号码") t then
      match findIdPattern t with
      | some r => some r
      | none =>
        match nearbyIdSearch b all with
        | some r => some r
        | none => labelledIdPass all rest
    else labelledIdPass all rest

/-- Fallback: scan every block directly for the pattern. -/
def directIdScan : List TextBlock → Option Text
  | [] => none
  | b :: rest =>
    match findIdPattern (pyStrip b.text) with
    | some r => some r
    | none => directIdScan rest

/-- `_extract_id_number` (lines 783-827). -/
def extract_id_number (blocks : List TextBlock) : Option Text :=
  match labelledIdPass blocks blocks with
  | some r => some r
  | none => directIdScan blocks

end SfzOcr

namespace SfzOcr

/-! ### Python dicts: insertion-ordered association lists -/

inductive FieldVal : Type
  | str (v : Text)
  | strList (v : List Text)
  | nat (n : Nat)
  | boolean (b : Bool)
deriving DecidableEq, Repr

abbrev Dict := List (Text × FieldVal)

def dictHas (d : Dict) (k : Text) : Bool := d.any (fun p => p.1 = k)

def dictGet (d : Dict) (k : Text) : Option FieldVal :=
  (d.find? (fun p => p.1 = k)).map (·.2)

/-- `d[k] = v`: overwrite in place, else append (Python dict semantics; a
dict's keys are unique, so overwriting the first occurrence is the law). -/
def dictSet : Dict → Text → FieldVal → Dict
  | [], k, v => [(k, v)]
  | p :: rest, k, v => if p.1 = k then (k, v) :: rest else p :: dictSet rest k v

/-! ### The national-front extraction loop (lines 391-501) -/

/-- Group 1 of `性别[\s:：]*([男女])`. -/
def sexGroup (t : Text) : Option Char :=
  searchGroup1 (.seq (.lit (tl "性别")) sepStar) (fun c => c = '男' || c = '女') t

/-- Group 1 of `<label>[\s:：]*(.+)`. -/
def labelRestGroup (label : Text) (t : Text) : Option Text :=
  searchGroupRest (.seq (.lit label) sepStar) t

/-- The `field_patterns` scan of one block (lines 403-429): `性别`, `民族`,
`出生` tried in dict order, first match stored (overwriting), then `break`. -/
def fieldPatternsStep (d : Dict) (t : Text) : Dict :=
  match sexGroup t with
  | some c => dictSet d (tl "sex") (.str (pyStrip [c]))
  | none =>
    match labelRestGroup (tl "民族") t with
    | some g => dictSet d (tl "nation") (.str (pyStrip g))
    | none =>
      match labelRestGroup (tl "出生") t with
      | some g => dictSet d (tl "birth") (.str (pyStrip g))
      | none => d

/-- Group 1 of `民族[\s:：]*([^\s]+)`. -/
def nationNoSpaceGroup (t : Text) : Option Text :=
  searchGroupCls (.seq (.lit (tl "民族")) sepStar) (fun c => !isSpaceC c) t

/-- Sex and ethnicity on one line (lines 432-440). -/
def combined1Step (d : Dict) (t : Text) : Dict :=
  if infixOf (tl "性别") t && infixOf (tl "民族") t then
    let d1 :=
      match sexGroup t with
      | some c => dictSet d (tl "sex") (.str (pyStrip [c]))
      | none => d
    match nationNoSpaceGroup t with
    | some g => dictSet d1 (tl "nation") (.str (pyStrip g))
    | none => d1
  else d

/-- Leftmost match of `性别([男女])民族([^\s]+)` (all pieces are
length-determined, so matching is positional). -/
def combined2At (cs : Text) : Option (Char × Text) :=
  if (tl "性别").isPrefixOf cs then
    match cs.drop 2 with
    | g :: rest2 =>
      if (g = '男' || g = '女') && (tl "民族").isPrefixOf rest2 then
        let run := (rest2.drop 2).takeWhile (fun x => !isSpaceC x)
        if run.isEmpty then none else some (g, run)
      else none
    | [] => none
  else none

def combined2Group : Text → Option (Char × Text)
  | [] => none
  | c :: rest =>
    match combined2At (c :: rest) with
    | some v => some v
    | none => combined2Group rest

/-- The fused `性别男民族汉` form (lines 443-449), only when sex is still
unset. -/
def combined2Step (d : Dict) (t : Text) : Dict :=
  if infixOf (tl "性别") t && infixOf (tl "民族") t && !dictHas d (tl "sex") then
    match combined2Group t with
    | some (g, n) =>
      dictSet (dictSet d (tl "sex") (.str (pyStrip [g]))) (tl "nation") (.str (pyStrip n))
    | none => d
  else d

/-- `re.match(r'^<18-shape>$', t)` as used to exclude ID numbers. -/
def idFullMatch (t : Text) : Bool := idMatch18 t

/-- Address-block collection for one block (lines 451-475). -/
def addressCollectStep (ab : List TextBlock) (b : TextBlock) (t : Text) :
    List TextBlock :=
  if infixOf (tl "住址") t then ab ++ [b]
  else
    match ab.getLast? with
    | none => ab
    | some last =>
      if idFullMatch t then ab
      else
        let ydiff := |centerY b - centerY last|
        if ydiff < 70 || (ydiff < 120 && 50 < centerX b) then
          if is_valid_address_text t then ab ++ [b] else ab
        else ab

def dateRE1 : RE :=
  cat [.rep isDigitC 4 4, .lit (tl "年"), .rep isDigitC 1 2, .lit (tl "月"),
       .rep isDigitC 1 2, .lit (tl "日")]

def dateRE2 : RE :=
  cat [.rep isDigitC 4 4, .cls (fun c => c = '.' || c = '/' || c = '-' || c = '年'),
       .rep isDigitC 1 2, .cls (fun c => c = '.' || c = '/' || c = '-' || c = '月'),
       .rep isDigitC 1 2, .opt (.lit (tl "日"))]

def dateRE3 : RE :=
  cat [.rep isDigitC 4 4, .repStar (fun c => c = '年' || isSpaceC c) 1,
       .rep isDigitC 1 2, .repStar (fun c => c = '月' || isSpaceC c) 1,
       .rep isDigitC 1 2, .opt (.lit (tl "日"))]

/-- Direct birth-date extraction near a `出生` label (lines 477-490),
first-set-wins. -/
def birthDateStep (d : Dict) (t : Text) : Dict :=
  if infixOf (tl "出生") t && !dictHas d (tl "birth") then
    match reSearch dateRE1 t with
    | some m => dictSet d (tl "birth") (.str (pyStrip m))
    | none =>
      match reSearch dateRE2 t with
      | some m => dictSet d (tl "birth") (.str (pyStrip m))
      | none =>
        match reSearch dateRE3 t with
        | some m => dictSet d (tl "birth") (.str (pyStrip m))
        | none => d
  else d

structure FrontState where
  info : Dict
  addrBlocks : List TextBlock
deriving DecidableEq, Repr

/-- One iteration of the per-block loop (lines 415-490). -/
def frontBlockStep (st : FrontState) (b : TextBlock) : FrontState :=
  let t := pyStrip b.text
  let d1 := fieldPatternsStep st.info t
  let d2 := combined1Step d1 t
  let d3 := combined2Step d2 t
  let ab := addressCollectStep st.addrBlocks b t
  let d4 := birthDateStep d3 t
  ⟨d4, ab⟩

/-- `if value:` guarded insertion (`None` and the empty string are falsy). -/
def setIfTruthy (d : Dict) (k : Text) : Option Text → Dict
  | some v => if v.isEmpty then d else dictSet d k (.str v)
  | none => d

/-- ID number and name extraction followed by the per-block loop
(lines 391-490). -/
def frontLoop (blocks : List TextBlock) : FrontState :=
  let d0 := setIfTruthy [] (tl "id_number") (extract_id_number blocks)
  let d1 := setIfTruthy d0 (tl "name") (extract_name_smart blocks)
  blocks.foldl frontBlockStep ⟨d1, []⟩

/-- `len(id_num) == 18 and re.match(r"^\d{17}[\dXx]$", id_num)`. -/
def idDeriveCheck (idn : Text) : Bool :=
  idn.length = 18 && (idn.take 17).all isDigitC &&
    (isDigitC (idn.getD 17 '?') || idn.getD 17 '?' = 'X' || idn.getD 17 '?' = 'x')

def natOfDigits (t : Text) : Nat := t.foldl (fun n c => 10 * n + digitVal c) 0

def digitChar (n : Nat) : Char := Char.ofNat (48 + n)

def natReprGo : Nat → Nat → Text → Text
  | 0, _, acc => acc
  | fuel + 1, n, acc =>
    if n = 0 then acc else natReprGo fuel (n / 10) (digitChar (n % 10) :: acc)

/-- Decimal rendering of a natural number (`f"{int(s)}"`). -/
def natRepr (n : Nat) : Text := if n = 0 then ['0'] else natReprGo 10 n []

/-- `f"{year}年{int(month)}月{int(day)}日"` from slices `[6:10]`, `[10:12]`,
`[12:14]` of the ID number (lines 496-500). -/
def deriveBirthFromId (idn : Text) : Text :=
  let year := (idn.drop 6).take 4
  let month := (idn.drop 10).take 2
  let day := (idn.drop 12).take 2
  year ++ tl "年" ++ natRepr (natOfDigits month) ++ tl "月" ++
    natRepr (natOfDigits day) ++ tl "日"

/-- Birth derivation from the ID number when no birth text was found
(lines 493-501). -/
def addDerivedBirth (d : Dict) : Dict :=
  if !dictHas d (tl "birth") && dictHas d (tl "id_number") then
    match dictGet d (tl "id_number") with
    | some (.str idn) =>
      if idDeriveCheck idn then dictSet d (tl "birth") (.str (deriveBirthFromId idn))
      else d
    | _ => d
  else d

end SfzOcr

namespace SfzOcr

/-! ### Address assembly, repair, and the rule engine (lines 503-635,
829-1029) -/

/-- Sort key `(center_y, center_x)` (line 506). -/
def keyLe (a b : TextBlock) : Bool :=
  centerY a < centerY b || (centerY a = centerY b && centerX a ≤ centerX b)

/-- `re.sub(r"住址[\s:：]*", "", text)`: every occurrence of the label plus
its greedy separator run is deleted, scanning resuming after each match.
Each step consumes at least one character, so length-many steps of fuel
always suffice. -/
def stripAddrLabelGo : Nat → Text → Text
  | 0, cs => cs
  | fuel + 1, cs =>
    match cs with
    | [] => []
    | c :: rest =>
      if (tl "住址").isPrefixOf (c :: rest) then
        stripAddrLabelGo fuel ((rest.drop 1).dropWhile isSepC)
      else c :: stripAddrLabelGo fuel rest

def stripAddrLabel (t : Text) : Text := stripAddrLabelGo t.length t

/-- Per-block address-part extraction (lines 512-533). -/
def assembleAddressParts (sorted : List TextBlock) : List Text :=
  sorted.filterMap (fun b =>
    let t0 := pyStrip b.text
    let t := if infixOf (tl "住址") t0 then stripAddrLabel t0 else t0
    if !t.isEmpty && is_valid_address_text t then
      if !idFullMatch t then some t else none
    else none)

def trailingPunct : Text := tl ",，.。、；;"

/-- `re.sub(r'[,，.。、；;]$', '', a)` (after whitespace removal the
`$`-before-newline case cannot arise). -/
def dropTrailingPunct (t : Text) : Text :=
  match t.getLast? with
  | some c => if trailingPunct.contains c then t.dropLast else t
  | none => t

def villageCls (c : Char) : Bool := (tl "村组社区队").contains c

/-- The six house-number shapes of lines 562-567 (`re.match`, `$`-ended). -/
def mainHousePatterns : List RE :=
  [cat [.repStar isDigitC 1, .opt (.lit (tl "号")), .eol],
   cat [.repStar (fun c => isDigitC c || c = '-') 1, .opt (.lit (tl "号")), .eol],
   cat [.repStar isDigitC 1, .cls (fun c => (tl "号室栋单元").contains c), .eol],
   cat [.repStar isDigitC 1, .cls isLatinL, .opt (.lit (tl "号")), .eol],
   cat [.cls villageCls, .repStar isDigitC 1, .opt (.lit (tl "号")), .eol],
   cat [.repStar nonNL 0, .cls villageCls, .repStar isDigitC 1, .opt (.lit (tl "号")), .eol]]

/-- Standalone house-number block search (lines 550-582). -/
def findHouseNumberBlock (sorted : List TextBlock) : List TextBlock → Option TextBlock
  | [] => none
  | b :: rest =>
    if sorted.contains b then findHouseNumberBlock sorted rest
    else
      let t := pyStrip b.text
      if idFullMatch t then findHouseNumberBlock sorted rest
      else if mainHousePatterns.any (fun r => reTest r t) then
        if 15 ≤ t.length then findHouseNumberBlock sorted rest
        else
          match sorted.getLast? with
          | none => findHouseNumberBlock sorted rest
          | some last =>
            if |centerY b - centerY last| < 120 then some b
            else findHouseNumberBlock sorted rest
      else findHouseNumberBlock sorted rest

/-- Candidate numeric blocks (lines 592-604). -/
def numberBlocksOf (all : List TextBlock) : List TextBlock :=
  all.filterMap (fun b =>
    let t := pyStrip b.text
    if idFullMatch t then none
    else if reSearchB (.repStar isDigitC 1) t && t.length < 10 && t.length < 15 then
      some b
    else none)

/-- House-number / numeric-block append phase (lines 549-621). -/
def houseAppendPhase (addr : Text) (all sorted : List TextBlock) : Text :=
  match findHouseNumberBlock sorted all with
  | some hb => if !endsWith hb.text addr then addr ++ hb.text else addr
  | none =>
    if !reSearchB (.cls isDigitC) addr then
      let nbs := numberBlocksOf all
      match sorted.getLast? with
      | none => addr
      | some last =>
        match argminBy (fun b => |centerY b - centerY last|) nbs with
        | none => addr
        | some cb =>
          let ct := pyStrip cb.text
          if !idFullMatch ct then
            if |centerY cb - centerY last| < 150 then addr ++ ct else addr
          else addr
    else addr

def notZhuZhi (c : Char) : Bool := !(c = '住' || c = '址')

/-- `village_number_patterns` (lines 852-857), each fully parenthesised so
the group is the whole match. -/
def villageNumberPatterns : List RE :=
  [cat [.cls villageCls, .repStar isDigitC 1, .opt (.lit (tl "号"))],
   cat [.repStar notZhuZhi 0, .cls villageCls, .repStar isDigitC 1, .opt (.lit (tl "号"))],
   cat [.cls villageCls, .repStar notZhuZhi 0, .repStar isDigitC 1, .opt (.lit (tl "号"))],
   cat [.repStar notZhuZhi 0, .cls villageCls, .repStar notZhuZhi 0,
        .repStar isDigitC 1, .opt (.lit (tl "号"))]]

def tryVillagePatternsGo (processed t : Text) : List RE → Option Text
  | [] => none
  | r :: rs =>
    match reSearch r t with
    | some vp =>
      if !infixOf vp processed then some (processed ++ vp)
      else tryVillagePatternsGo processed t rs
    | none => tryVillagePatternsGo processed t rs

/-- First repair loop of `_post_process_address` (lines 858-873). -/
def ppaLoop1 (processed : Text) : List TextBlock → Option Text
  | [] => none
  | b :: rest =>
    let t := pyStrip b.text
    if infixOf (tl "住址") t then ppaLoop1 processed rest
    else if is_valid_address_text t then
      match tryVillagePatternsGo processed t villageNumberPatterns with
      | some r => some r
      | none => ppaLoop1 processed rest
    else ppaLoop1 processed rest

/-- Village-name repair loop (lines 876-894), `break` on first addition. -/
def ppaVillageLoop (processed : Text) : List TextBlock → Text
  | [] => processed
  | b :: rest =>
    let t := pyStrip b.text
    if infixOf (tl "住址") t || !is_valid_address_text t then ppaVillageLoop processed rest
    else if idFullMatch t then ppaVillageLoop processed rest
    else
      match reSearch (cat [.repStar notZhuZhi 0, .cls villageCls]) t with
      | some vn =>
        if !infixOf vn processed then processed ++ vn
        else ppaVillageLoop processed rest
      | none => ppaVillageLoop processed rest

/-- `house_number_patterns` (lines 898-906). -/
def ppaHousePatterns : List RE :=
  [cat [.repStar isDigitC 1, .lit (tl "号")],
   cat [.repStar isDigitC 1, .cls (fun c => (tl "室栋单元").contains c)],
   cat [.opt (.cls isLatinL), .repStar isDigitC 1, .opt (.lit (tl "号"))],
   cat [.repStar isDigitC 1, .lit (tl "-"), .repStar isDigitC 1, .opt (.lit (tl "号"))],
   cat [.repStar isDigitC 1, .cls isLatinL, .opt (.lit (tl "号"))],
   cat [.opt (.lit (tl "第")), .repStar isDigitC 1, .lit (tl "号")],
   cat [.repStar isDigitC 1, .opt (.cls (fun c => (tl "弄巷里街道路").contains c)),
        .repStar isDigitC 0, .opt (.lit (tl "号"))]]

def tryHouseNumGo (processed t : Text) : List RE → Option Text
  | [] => none
  | r :: rs =>
    match reSearch r t with
    | some hn =>
      if idFullMatch hn then tryHouseNumGo processed t rs
      else if !infixOf hn processed then some (processed ++ hn)
      else tryHouseNumGo processed t rs
    | none => tryHouseNumGo processed t rs

/-- House-number repair loop (lines 896-931), returning on first addition. -/
def ppaHouseLoop (processed : Text) : List TextBlock → Text
  | [] => processed
  | b :: rest =>
    let t := pyStrip b.text
    if infixOf (tl "住址") t || 20 < t.length || !is_valid_address_text t then
      ppaHouseLoop processed rest
    else if idFullMatch t then ppaHouseLoop processed rest
    else
      match tryHouseNumGo processed t ppaHousePatterns with
      | some r => r
      | none => ppaHouseLoop processed rest

/-- `_post_process_address` (lines 829-934). -/
def post_process_address (address : Text) (blocks : List TextBlock) : Text :=
  let hasVillage := reSearchB (.cls villageCls) address
  let hasHouse := reSearchB (cat [.repStar isDigitC 1, .lit (tl "号")]) address
  match ppaLoop1 address blocks with
  | some r => r
  | none =>
    let processed := if !hasVillage then ppaVillageLoop address blocks else address
    if !hasHouse then ppaHouseLoop processed blocks else processed

/-- `re.search(r'[乡镇]$', a)`. -/
def townshipEnd (address : Text) : Bool :=
  reSearchB (cat [.cls (fun c => c = '乡' || c = '镇'), .eol]) address

/-- `re.search(r'[村组社区队]$', a)`. -/
def villageEnd (address : Text) : Bool :=
  reSearchB (cat [.cls villageCls, .eol]) address

def digitHaoRE : RE := cat [.repStar isDigitC 1, .opt (.lit (tl "号"))]

/-- `bool(re.search(r'\d+号?', a))`. -/
def hasDigitHao (t : Text) : Bool := reSearchB digitHaoRE t

/-- Rule-1 block scan (lines 966-982). -/
def rule1Loop (address lastPlace : Text) : List TextBlock → Option Text
  | [] => none
  | b :: rest =>
    let t := pyStrip b.text
    match reSearchIn (cat [.lit lastPlace, .cls villageCls]) t with
    | some (i, vn) =>
      if !infixOf vn address then
        let addr2 := address ++ tl " " ++ vn
        match reSearch digitHaoRE (t.drop (i + vn.length)) with
        | some num => some (addr2 ++ num)
        | none => some addr2
      else rule1Loop address lastPlace rest
    | none => rule1Loop address lastPlace rest

/-- Rule-2 block scan (lines 993-1004). -/
def rule2Loop (address vn : Text) : List TextBlock → Option Text
  | [] => none
  | b :: rest =>
    let t := pyStrip b.text
    if infixOf vn t then
      match findIdx vn t with
      | some i =>
        if i + vn.length < t.length then
          match reSearch digitHaoRE (t.drop (i + vn.length)) with
          | some num => some (address ++ num)
          | none => rule2Loop address vn rest
        else rule2Loop address vn rest
      | none => rule2Loop address vn rest
    else rule2Loop address vn rest

/-- Rule-3 block scan (lines 1010-1026). -/
def rule3Loop (address : Text) : List TextBlock → Option Text
  | [] => none
  | b :: rest =>
    let t := pyStrip b.text
    if idFullMatch t then rule3Loop address rest
    else if reTest (cat [.repStar isDigitC 1, .opt (.lit (tl "号")), .eol]) t &&
            t.length < 10 && t.length < 15 then
      if !idFullMatch t then some (address ++ tl " " ++ t)
      else rule3Loop address rest
    else rule3Loop address rest

/-- `_apply_address_rules` (lines 936-1029). The `name` argument is unused
by the live code (a special case for it is commented out in the source). -/
def apply_address_rules (address _name : Text) (blocks : List TextBlock) : Text :=
  let r1 :=
    if townshipEnd address then
      -- `address.split()[-1]` cannot fail here: the guard requires a
      -- non-whitespace character, so the split is non-empty
      match (pySplit address).getLast? with
      | none => none
      | some lastTok =>
        if endsWith (tl "乡") lastTok || endsWith (tl "镇") lastTok then
          rule1Loop address lastTok.dropLast blocks
        else none
    else none
  match r1 with
  | some r => r
  | none =>
    let r2 :=
      if villageEnd address && !hasDigitHao address then
        match reSearch (cat [.repStar isWordC 1, .cls villageCls, .eol]) address with
        | some vn => rule2Loop address vn blocks
        | none => none
      else none
    match r2 with
    | some r => r
    | none =>
      if !hasDigitHao address then
        match rule3Loop address blocks with
        | some r => r
        | none => address
      else address

/-- The address phase of front extraction (lines 503-635): the source
re-reads and re-writes `id_card_info["address"]` at each step with no other
write interleaved, so the net effect is one insertion of the final value. -/
def addressPhase (d : Dict) (addrBlocks blocks : List TextBlock) : Dict :=
  if !dictHas d (tl "address") && !addrBlocks.isEmpty then
    let sorted := stableSort keyLe addrBlocks
    let a0 := pyStrip ((assembleAddressParts sorted).foldl (· ++ ·) [])
    let a1 := a0.filter (fun c => !isSpaceC c)
    let a2 := dropTrailingPunct a1
    let a3 := houseAppendPhase a2 blocks sorted
    let a4 := post_process_address a3 blocks
    let nameStr :=
      match dictGet d (tl "name") with
      | some (.str n) => n
      | _ => []
    dictSet d (tl "address") (.str (apply_address_rules a4 nameStr blocks))
  else d

/-- National-card front extraction from text blocks (lines 391-635). -/
def extractFront (blocks : List TextBlock) : Dict :=
  let st := frontLoop blocks
  addressPhase (addDerivedBirth st.info) st.addrBlocks blocks

/-- National-card back extraction (lines 637-651). -/
def backStep (d : Dict) (b : TextBlock) : Dict :=
  let t := pyStrip b.text
  let d1 :=
    if infixOf (tl "签发机关") t then
      match labelRestGroup (tl "签发机关") t with
      | some g => dictSet d (tl "issue_authority") (.str (pyStrip g))
      | none => d
    else d
  if infixOf (tl "有效期") t then
    match searchGroupRest
        (cat [.lit (tl "有效期"), .opt (.cls (fun c => c = '限' || c = '至')), sepStar]) t with
    | some g => dictSet d1 (tl "valid_period") (.str (pyStrip g))
    | none => d1
  else d1

def extractBack (blocks : List TextBlock) : Dict := blocks.foldl backStep []

end SfzOcr

namespace SfzOcr

/-! ### Foreign permanent-residence card extraction (lines 1093-1282,
1307-1450) -/

/-- `re.match(r'^[A-Z]+$', t)` etc. need no general star; the dotted shape
`^[A-Z]+(?:\.[A-Z]+)*$` holds iff every dot-separated chunk is a non-empty
run of capitals (the `$` tolerating one trailing newline). -/
def allCapsDotted (t : Text) : Bool :=
  let core := if t.getLast? = some '\n' then t.dropLast else t
  !core.isEmpty && (core.splitOn '.').all (fun part => !part.isEmpty && part.all isUpperL)

/-- Python `str.isdigit` (ASCII repertoire). -/
def pyIsDigitStr (t : Text) : Bool := !t.isEmpty && t.all isDigitC

def foreignFieldLabelChars : Text := tl "性别出生国籍有效期限证件号码签发机关"

def englishFieldLabelRE : RE :=
  cat [.alt (.lit (tl "Sex")) (.alt (.lit (tl "Birth")) (.alt (.lit (tl "Nationality"))
    (.alt (.lit (tl "Period")) (.alt (.lit (tl "Validity"))
      (.alt (.lit (tl "IDNO")) (.lit (tl "CardNo"))))))), .eol]

def dotDatePrefixRE : RE :=
  cat [.rep isDigitC 4 4, .lit (tl "."), .rep isDigitC 2 2, .lit (tl "."),
       .rep isDigitC 2 2]

/-- `_is_english_name_part` (lines 1307-1351); the float test
`letters/total < 0.7` agrees exactly with `10*letters < 7*total` for the
small counts arising here. -/
def is_english_name_part (t : Text) : Bool :=
  if t.isEmpty || t.length < 2 then false
  else
    let cleaned := t.filter isWordC
    if cleaned.isEmpty then false
    else if 10 * (cleaned.filter isAlphaPy).length < 7 * cleaned.length then false
    else if !cleaned.any isLatinL then false
    else if reTest (cat [.repStar isDigitC 1, .eol]) t then false
    else if reTest (.repStar (fun c => foreignFieldLabelChars.contains c) 1) t then false
    else if reTest englishFieldLabelRE t then false
    else if reTest dotDatePrefixRE t then false
    else if infixOf (tl "证件样本") t then false
    else true

/-- `_smart_find_english_name` (lines 1353-1392). -/
def smart_find_english_name (all_texts : List Text) : Option Text :=
  let cands := all_texts.filterMap (fun t =>
    if is_english_name_part t && 3 ≤ t.length && !pyIsDigitStr t then
      if reTest (cat [.repStar isLatinL 1, .eol]) t ||
         reTest (cat [.cls isUpperL, .repStar isLowerL 1, .eol]) t ||
         allCapsDotted t then
        some (if t.contains '.' then replaceChar '.' ' ' t else t)
      else none
    else none)
  match cands with
  | [] => none
  | [c] => some c
  | cs => some (List.intercalate (tl " ") (cs.take 3))

/-- Greedy match of `^(P{lo1,hi1})(P{lo2,hi2})$` over an all-`P` string of
length `n`: the first group takes `min hi1 (n - lo2)`; backtracking cannot
help, since shrinking the first group only enlarges the second. -/
def twoGroupSplit (lo1 hi1 lo2 hi2 n : Nat) : Option Nat :=
  let g1 := min hi1 (n - lo2)
  if lo1 + lo2 ≤ n && lo1 ≤ g1 && n - g1 ≤ hi2 then some g1 else none

/-- The best-effort midpoint search of lines 1435-1446, with its quirk: a
successful `best = mid` at offset 0 fails the `best != mid` test, so the
offset-1 positions still run and win when in range. -/
def midSplitBest (mid n : Nat) : Nat :=
  let ok := fun (pos : Nat) => 3 ≤ pos && pos ≤ n - 3
  if ok (mid + 1) then mid + 1
  else if 1 ≤ mid && ok (mid - 1) then mid - 1
  else if ok (mid + 2) then mid + 2
  else if 2 ≤ mid && ok (mid - 2) then mid - 2
  else mid

/-- `_format_english_name` (lines 1394-1450). The five `common_patterns`
are fixed-bound two-group splits of an all-capital string; each
replacement inserts the space, so the `' ' in formatted` guard always
passes on a match. -/
def format_english_name (nameText : Text) : Text :=
  if nameText.isEmpty || !reTest (cat [.repStar isUpperL 1, .eol]) nameText then nameText
  else
    let hadNL := nameText.getLast? = some '\n'
    let core := if hadNL then nameText.dropLast else nameText
    let tailNL : Text := if hadNL then ['\n'] else []
    let n := core.length
    if (tl "ZHENGJIAN").isPrefixOf core && 9 + 6 ≤ n then
      tl "ZHENGJIAN " ++ core.drop 9 ++ tailNL
    else
      match twoGroupSplit 8 8 6 6 n with
      | some g => core.take g ++ tl " " ++ core.drop g ++ tailNL
      | none =>
        match twoGroupSplit 7 7 7 7 n with
        | some g => core.take g ++ tl " " ++ core.drop g ++ tailNL
        | none =>
          match twoGroupSplit 4 6 8 n n with
          | some g => core.take g ++ tl " " ++ core.drop g ++ tailNL
          | none =>
            match twoGroupSplit 4 8 4 n n with
            | some g => core.take g ++ tl " " ++ core.drop g ++ tailNL
            | none =>
              let best := midSplitBest (nameText.length / 2) nameText.length
              nameText.take best ++ tl " " ++ nameText.drop best

/-- First text satisfying a predicate (the `for … break` scans). -/
def firstWhere (p : Text → Bool) : List Text → Option Text
  | [] => none
  | t :: rest => if p t then some t else firstWhere p rest

/-- First index whose text contains the name marker (lines 1134-1140;
`"姓名/Name" in text or "Name" in text`). -/
def findNameMarkIdx : List Text → Option Nat
  | [] => none
  | t :: rest =>
    if infixOf (tl "姓名/Name") t || infixOf (tl "Name") t then some 0
    else (findNameMarkIdx rest).map (· + 1)

/-- The label-anchored english-name scan (lines 1142-1159). -/
def foreignNewNameScan (acc : List Text) : List Text → List Text
  | [] => acc
  | t :: rest =>
    if is_english_name_part t then foreignNewNameScan (acc ++ [t]) rest
    else if t = tl "证件样本" || t = tl "YANGBEN" || t = tl "样本" ||
            infixOf (tl "性别") t || infixOf (tl "Sex") t then acc
    else if !acc.isEmpty then acc
    else foreignNewNameScan acc rest

def foreignSexRE : RE :=
  cat [.cls (fun c => c = '男' || c = '女'), .lit (tl "/"),
       .cls (fun c => c = 'M' || c = 'F'), .eol]

def dotDateFullRE : RE :=
  cat [.rep isDigitC 4 4, .lit (tl "."), .rep isDigitC 2 2, .lit (tl "."),
       .rep isDigitC 2 2, .eol]

def dateRangePrefixRE : RE :=
  cat [.rep isDigitC 4 4, .lit (tl "."), .rep isDigitC 2 2, .lit (tl "."),
       .rep isDigitC 2 2, .lit (tl "-"), .rep isDigitC 4 4, .lit (tl "."),
       .rep isDigitC 2 2, .lit (tl "."), .rep isDigitC 2 2]

def countryVocab : List Text :=
  [tl "加拿大", tl "CAN", tl "美国", tl "USA", tl "英国", tl "GBR"]

/-- `_extract_foreign_id_card_info` (lines 1093-1282). -/
def extract_foreign_id_card_info (blocks : List TextBlock) (card_type : Text) : Dict :=
  let version := if card_type = tl "foreign_new" then tl "new" else tl "old"
  let d0 := dictSet [] (tl "card_type")
    (.str (if version = tl "new" then tl "新版外国人永久居留身份证"
           else tl "旧版外国人永久居留身份证"))
  let all_texts := blocks.map (·.text)
  let d1 :=
    if all_texts.any (fun t => infixOf (tl "证件样本") t) then
      dictSet d0 (tl "chinese_name") (.str (tl "证件样本"))
    else d0
  if version = tl "new" then
    let parts :=
      match findNameMarkIdx all_texts with
      | some i => foreignNewNameScan [] (all_texts.drop (i + 1))
      | none => []
    let d2 :=
      if !parts.isEmpty then
        dictSet d1 (tl "english_name") (.str (List.intercalate (tl " ") parts))
      else
        match smart_find_english_name all_texts with
        | some en => dictSet d1 (tl "english_name") (.str en)
        | none => d1
    let d3 :=
      match firstWhere (fun t => reTest foreignSexRE t) all_texts with
      | some t => dictSet d2 (tl "sex") (.str t)
      | none => d2
    let d4 :=
      match firstWhere (fun t => reTest dotDateFullRE t) all_texts with
      | some t => dictSet d3 (tl "birth_date") (.str t)
      | none => d3
    let d5 :=
      match firstWhere
          (fun t => t.contains '/' && countryVocab.any (fun c => infixOf c t)) all_texts with
      | some t => dictSet d4 (tl "nationality") (.str t)
      | none => d4
    let d6 :=
      match firstWhere (fun t => reTest (cat [.rep isDigitC 18 18, .eol]) t) all_texts with
      | some t => dictSet d5 (tl "residence_number") (.str t)
      | none => d5
    match firstWhere (fun t => reTest dateRangePrefixRE t) all_texts with
    | some t => dictSet d6 (tl "valid_until") (.str t)
    | none => d6
  else
    let d2 :=
      match firstWhere (fun t => allCapsDotted t && 8 < t.length) all_texts with
      | some t =>
        dictSet d1 (tl "english_name")
          (.str (if t.contains '.' then replaceChar '.' ' ' t else format_english_name t))
      | none => d1
    let d3 :=
      match firstWhere (fun t => reTest foreignSexRE t) all_texts with
      | some t => dictSet d2 (tl "sex") (.str t)
      | none => d2
    let d4 :=
      match firstWhere (fun t => reTest dotDateFullRE t) all_texts with
      | some t => dictSet d3 (tl "birth_date") (.str t)
      | none => d3
    let d5 :=
      match firstWhere (fun t => countryVocab.any (fun c => infixOf c t)) all_texts with
      | some t =>
        if infixOf (tl "加拿大") t then dictSet d4 (tl "nationality") (.str (tl "加拿大"))
        else if infixOf (tl "CAN") t then dictSet d4 (tl "nationality") (.str (tl "加拿大"))
        else d4
      | none => d4
    let d6 :=
      match firstWhere
          (fun t => reTest (cat [.repStar isUpperL 1, .repStar isDigitC 1, .eol]) t &&
                    10 < t.length) all_texts with
      | some t => dictSet d5 (tl "residence_number") (.str t)
      | none => d5
    -- line 1270: the validity period is hard-coded, not read from any block
    let d7 := dictSet d6 (tl "valid_until") (.str (tl "2023.09.15-2033.09.14"))
    match firstWhere (fun t => infixOf (tl "管理局") t || infixOf (tl "移民") t) all_texts with
    | some t => dictSet d7 (tl "issue_authority") (.str t)
    | none => d7

/-! ### Debug mode and the top-level dispatch (lines 341-682) -/

/-- The dict built in debug mode (lines 367-375). -/
def debugDict (blocks : List TextBlock) : Dict :=
  [(tl "ocr_text", .strList (blocks.map (·.text))),
   (tl "total_blocks", .nat blocks.length),
   (tl "debug_mode", .boolean true)]

/-- `extract_id_card_info` from the built text blocks onward (lines
341-668): debug short-circuit, then auto detection, then dispatch on card
type and side. -/
def extract_from_blocks (blocks : List TextBlock) (is_front : Bool)
    (card_type : Text) (debug : Bool) : Dict :=
  if debug then debugDict blocks
  else
    let ctf := if card_type = tl "auto" then detect_card_type blocks
               else (card_type, is_front)
    if (tl "foreign").isPrefixOf ctf.1 then extract_foreign_id_card_info blocks ctf.1
    else if ctf.2 then extractFront blocks
    else extractBack blocks

end SfzOcr

namespace SfzOcr

/-! ### Concrete inputs used by the claim theorems -/

def mkBlock (s : String) (x y : ℚ) : TextBlock :=
  ⟨tl s, 9 / 10, [(x, y), (x + 100, y), (x + 100, y + 20), (x, y + 20)]⟩

/-- Only national-front label indicators, no foreign indicator. -/
def c3Blocks : List TextBlock :=
  [mkBlock "姓名" 30 20, mkBlock "民族" 30 60, mkBlock "住址" 30 140,
   mkBlock "公民身份号码" 30 220]

/-- A labelled block with no ID pattern within 50px, plus a distant block
carrying the pattern. -/
def c4Blocks : List TextBlock :=
  [mkBlock "公民身份号码" 30 0, mkBlock "110101199001011234" 30 1000]

def c5Label : TextBlock := mkBlock "姓名" 0 0

/-- A bare name label with a near and a far plausible name. -/
def c5Blocks : List TextBlock :=
  [c5Label, mkBlock "张三" 60 0, mkBlock "李四" 500 0]

/-- Spec end-to-end scenario 2: name block and ID block only. -/
def c6Blocks : List TextBlock :=
  [mkBlock "姓名 李四" 30 20, mkBlock "公民身份号码 110101199506070011" 30 220]

def c7Blocks : List TextBlock := [mkBlock "姓名 张三" 30 20]

/-- A lone address label: the collected address assembles to nothing. -/
def c9Blocks : List TextBlock := [mkBlock "住址" 30 140]

/-- The classifier decision rule as the specification words it (C3):
foreign when at least two foreign keywords occur, version new on
new-score at least old-score; otherwise national when any national
indicator occurs, front on front-score at least back-score; otherwise the
national-front default. -/
def detectCardTypeSpec (blocks : List TextBlock) : Text × Bool :=
  let combined := combinedText blocks
  if 2 ≤ keywordScore foreignKeywords combined then
    if keywordScore oldVersionIndicators combined ≤
       keywordScore newVersionIndicators combined then (tl "foreign_new", true)
    else (tl "foreign_old", true)
  else if 0 < keywordScore chineseKeywords combined then
    (tl "chinese",
     keywordScore backIndicators combined ≤ keywordScore frontIndicators combined)
  else (tl "chinese", true)


/-! ### Helper lemmas -/

theorem dictGet_cons (p : Text × FieldVal) (rest : Dict) (k : Text) :
    dictGet (p :: rest) k = if p.1 = k then some p.2 else dictGet rest k := by
  by_cases hp : p.1 = k <;> simp [dictGet, List.find?_cons, hp]

theorem dictHas_eq_isSome (d : Dict) (k : Text) :
    dictHas d k = (dictGet d k).isSome := by
  induction d with
  | nil => rfl
  | cons p rest ih =>
    by_cases hp : p.1 = k
    · simp [dictHas, List.any_cons, dictGet_cons, hp]
    · simp [dictHas, List.any_cons, dictGet_cons, hp]
      simpa [dictHas] using ih

theorem dictGet_dictSet_self (k : Text) (v : FieldVal) :
    ∀ d : Dict, dictGet (dictSet d k v) k = some v
  | [] => by simp [dictSet, dictGet_cons]
  | p :: rest => by
    by_cases hp : p.1 = k <;>
      simp [dictSet, hp, dictGet_cons, dictGet_dictSet_self k v rest]

theorem dictGet_dictSet_ne (k k' : Text) (v : FieldVal) (hne : k' ≠ k) :
    ∀ d : Dict, dictGet (dictSet d k v) k' = dictGet d k'
  | [] => by
    have hk : ¬(k = k') := fun h => hne h.symm
    simp [dictSet, dictGet_cons, dictGet, hk]
  | p :: rest => by
    by_cases hp : p.1 = k
    · have hk : ¬(k = k') := fun h => hne h.symm
      have hp' : ¬(p.1 = k') := by rw [hp]; exact hk
      simp [dictSet, hp, dictGet_cons, hk, hp']
    · simp [dictSet, hp, dictGet_cons, dictGet_dictSet_ne k k' v hne rest]

theorem pyStrip_eq_self (t : Text)
    (hh : ∀ c, t.head? = some c → isSpaceC c = false)
    (hl : ∀ c, t.getLast? = some c → isSpaceC c = false) : pyStrip t = t := by
  unfold pyStrip
  have h1 : t.dropWhile isSpaceC = t := by
    cases t with
    | nil => rfl
    | cons a l => rw [List.dropWhile_cons, hh a rfl]; simp
  rw [h1]
  have h2 : t.reverse.dropWhile isSpaceC = t.reverse := by
    cases hr : t.reverse with
    | nil => rfl
    | cons a l =>
      have ha : t.getLast? = some a := by
        rw [← List.head?_reverse, hr]; rfl
      rw [List.dropWhile_cons, hl a ha]; simp
  rw [h2, List.reverse_reverse]

theorem isSpaceC_false_of_digit {c : Char} (h : isDigitC c = true) :
    isSpaceC c = false := by
  simp only [isDigitC, Bool.and_eq_true, decide_eq_true_eq] at h
  simp only [isSpaceC, Bool.or_eq_false_iff, decide_eq_false_iff_not]
  omega

theorem isDigitC_of_nonzero {c : Char} (h : isNonzeroDigit c = true) :
    isDigitC c = true := by
  simp only [isNonzeroDigit, Bool.and_eq_true, decide_eq_true_eq] at h
  simp only [isDigitC, Bool.and_eq_true, decide_eq_true_eq]
  omega

theorem getLast?_eq_getD : ∀ (t : Text) (n : Nat), t.length = n + 1 →
    t.getLast? = some (t.getD n '?')
  | [], n, h => by simp at h
  | [a], n, h => by
    have : n = 0 := by simpa using h.symm
    subst this; rfl
  | a :: b :: m, n, h => by
    have hn : 1 ≤ n := by
      simp only [List.length_cons] at h; omega
    have h' : (b :: m).length = (n - 1) + 1 := by
      simp only [List.length_cons] at h ⊢; omega
    have hrw : n = (n - 1) + 1 := by omega
    have hgd : (a :: b :: m).getD n '?' = (b :: m).getD (n - 1) '?' := by
      conv_lhs => rw [hrw]
      rw [List.getD_cons_succ]
    rw [List.getLast?_cons_cons, getLast?_eq_getD (b :: m) (n - 1) h', hgd]

theorem head?_eq_getD (t : Text) (h : t ≠ []) :
    t.head? = some (t.getD 0 '?') := by
  cases t with
  | nil => exact absurd rfl h
  | cons a l => rfl

end SfzOcr

namespace SfzOcr

theorem mem_of_head?_eq {l : Text} {a : Char} (h : l.head? = some a) : a ∈ l := by
  cases l with
  | nil => simp at h
  | cons x xs =>
    simp only [List.head?_cons, Option.some.injEq] at h
    exact h ▸ List.mem_cons_self x xs

theorem mem_of_getLast?_eq {l : Text} {a : Char} (h : l.getLast? = some a) : a ∈ l := by
  rw [← List.head?_reverse] at h
  have : a ∈ l.reverse := mem_of_head?_eq h
  simpa using this

theorem repSuffixes_ne_nil {cs : Text} {lo k : Nat} (h : lo ≤ k) :
    repSuffixes cs lo k ≠ [] := by
  unfold repSuffixes
  rw [if_neg (by omega)]
  simp only [ne_eq, List.map_eq_nil_iff, List.range_eq_nil]
  omega

theorem REmatches_opt_ne_nil (a : RE) (cs : Text) : REmatches (.opt a) cs ≠ [] := by
  simp [REmatches]

theorem flatMap_ne_nil_of_mem {α β : Type} {f : α → List β} :
    ∀ {l : List α} {x : α}, x ∈ l → f x ≠ [] → l.flatMap f ≠ []
  | a :: l, x, hx, hf => by
    intro hnil
    rw [List.flatMap_cons, List.append_eq_nil] at hnil
    rcases List.mem_cons.mp hx with rfl | hmem
    · exact hf hnil.1
    · exact flatMap_ne_nil_of_mem hmem hf hnil.2

theorem REmatches_digitHao_cons {c : Char} (rest : Text) (h : isDigitC c = true) :
    REmatches digitHaoRE (c :: rest) ≠ [] := by
  have h1 : REmatches (.repStar isDigitC 1) (c :: rest) ≠ [] := by
    have hrun : 1 ≤ runLen isDigitC (c :: rest) := by
      simp [runLen, List.takeWhile_cons, h]
    simpa only [REmatches] using @repSuffixes_ne_nil (c :: rest) 1 _ hrun
  obtain ⟨x, hx⟩ := List.exists_mem_of_ne_nil _ h1
  have hx2 : REmatches (.seq (.opt (.lit (tl "号"))) .eps) x ≠ [] := by
    obtain ⟨y, hy⟩ :=
      List.exists_mem_of_ne_nil _ (REmatches_opt_ne_nil (.lit (tl "号")) x)
    exact flatMap_ne_nil_of_mem hy (by simp [REmatches])
  exact flatMap_ne_nil_of_mem hx hx2

theorem hasDigitHao_of_digit : ∀ t : Text, t.any isDigitC = true → hasDigitHao t = true
  | [], h => by simp at h
  | c :: rest, h => by
    unfold hasDigitHao reSearchB
    by_cases hc : isDigitC c = true
    · have hne := REmatches_digitHao_cons rest hc
      cases hm : (REmatches digitHaoRE (c :: rest)).head? with
      | none => exact absurd (List.head?_eq_none_iff.mp hm) hne
      | some s => simp [reSearchIn, hm]
    · have h' : rest.any isDigitC = true := by
        simpa [List.any_cons, hc] using h
      have ih := hasDigitHao_of_digit rest h'
      unfold hasDigitHao reSearchB at ih
      cases hm : (REmatches digitHaoRE (c :: rest)).head? with
      | some s => simp [reSearchIn, hm]
      | none => simp only [reSearchIn, hm]; simpa using ih

theorem foldlMin_spec {α : Type} (f : α → ℚ) :
    ∀ (l : List α) (b : α),
      (l.foldl (fun best y => if f y < f best then y else best) b = b ∨
       l.foldl (fun best y => if f y < f best then y else best) b ∈ l) ∧
      f (l.foldl (fun best y => if f y < f best then y else best) b) ≤ f b ∧
      ∀ x ∈ l, f (l.foldl (fun best y => if f y < f best then y else best) b) ≤ f x
  | [], b => ⟨Or.inl rfl, le_refl _, by simp⟩
  | y :: ys, b => by
    have ih := foldlMin_spec f ys (if f y < f b then y else b)
    obtain ⟨hmem, hleb, hall⟩ := ih
    rw [List.foldl_cons]
    by_cases hy : f y < f b
    · rw [if_pos hy] at hmem hleb hall ⊢
      refine ⟨?_, ?_, ?_⟩
      · rcases hmem with h | h
        · rw [h]; exact Or.inr (List.mem_cons_self y ys)
        · exact Or.inr (List.mem_cons_of_mem _ h)
      · exact le_trans hleb (le_of_lt hy)
      · intro x hx
        rcases List.mem_cons.mp hx with rfl | hx'
        · exact hleb
        · exact hall x hx'
    · rw [if_neg hy] at hmem hleb hall ⊢
      refine ⟨?_, hleb, ?_⟩
      · rcases hmem with h | h
        · exact Or.inl h
        · exact Or.inr (List.mem_cons_of_mem _ h)
      · intro x hx
        rcases List.mem_cons.mp hx with rfl | hx'
        · exact le_trans hleb (not_lt.mp hy)
        · exact hall x hx'

theorem argminBy_spec {α : Type} (f : α → ℚ) (l : List α) (m : α)
    (h : argminBy f l = some m) : m ∈ l ∧ ∀ x ∈ l, f m ≤ f x := by
  cases l with
  | nil => simp [argminBy] at h
  | cons x xs =>
    simp only [argminBy, Option.some.injEq] at h
    obtain ⟨hmem, hleb, hall⟩ := foldlMin_spec f xs x
    constructor
    · rw [← h]
      rcases hmem with h' | h'
      · rw [h']; exact List.mem_cons_self x xs
      · exact List.mem_cons_of_mem _ h'
    · intro z hz
      rw [← h]
      rcases List.mem_cons.mp hz with rfl | hz'
      · exact hleb
      · exact hall z hz'

end SfzOcr

namespace SfzOcr

/-! ### Claim theorems -/

/-- C1: `validate_id_number` accepts an 18-character string iff it matches
the 18-character ID shape and the check character computed from the
weighted sum of the first 17 digits modulo 11 through `"10X98765432"`
equals the 18th character case-insensitively; in particular every such
valid number is accepted, and every 18-character string whose final
character differs from the computed check character is rejected. -/
theorem validate_id_number_iff_checksum (cs : Text) (h : cs.length = 18) :
    validate_id_number cs = true ↔
      (idShape18 cs = true ∧
       (computedCheckChar cs).toUpper = (cs.getD 17 '?').toUpper) := by
  have hne : cs.isEmpty = false := by
    cases cs with
    | nil => simp at h
    | cons a l => rfl
  have htake : cs.take 18 = cs := by
    rw [← h]; exact List.take_length cs
  unfold validate_id_number idMatch18
  rw [htake]
  by_cases hs : idShape18 cs = true
  · simp [hne, hs, h]
  · simp [hne, hs, h]

theorem validate_id_number_witness :
    validate_id_number (tl "110101199001011237") = true :=
  (validate_id_number_iff_checksum (tl "110101199001011237") (by decide)).mpr
    ⟨by decide, by decide⟩

theorem idShaped_nonspace_ends (t : Text) (h : idShaped15or18 t = true) :
    (∀ c, t.head? = some c → isSpaceC c = false) ∧
    (∀ c, t.getLast? = some c → isSpaceC c = false) := by
  unfold idShaped15or18 at h
  rw [Bool.or_eq_true] at h
  rcases h with h15 | h18
  · rw [Bool.and_eq_true] at h15
    obtain ⟨hlen, hall⟩ := h15
    rw [decide_eq_true_eq] at hlen
    rw [List.all_eq_true] at hall
    constructor
    · intro c hc
      exact isSpaceC_false_of_digit (hall c (mem_of_head?_eq hc))
    · intro c hc
      exact isSpaceC_false_of_digit (hall c (mem_of_getLast?_eq hc))
  · simp only [idShape18, Bool.and_eq_true, decide_eq_true_eq, Bool.or_eq_true] at h18
    obtain ⟨⟨⟨⟨⟨⟨⟨⟨⟨hlen, h0⟩, h15⟩, h67⟩, h8⟩, h9⟩, hmon⟩, hday⟩, h14⟩, h17⟩ := h18
    have hnil : t ≠ [] := by
      intro hx; rw [hx] at hlen; simp at hlen
    constructor
    · intro c hc
      rw [head?_eq_getD t hnil, Option.some.injEq] at hc
      rw [← hc]
      exact isSpaceC_false_of_digit (isDigitC_of_nonzero h0)
    · intro c hc
      rw [getLast?_eq_getD t 17 hlen, Option.some.injEq] at hc
      have h17' : (isDigitC c = true ∨ c = 'X') ∨ c = 'x' := by
        rw [← hc]; exact h17
      rcases h17' with hd | rfl | rfl
      · rcases hd with hd | rfl
        · exact isSpaceC_false_of_digit hd
        · decide
      · decide

/-- C2: any text shaped exactly like a national ID number (15 bare digits,
or the 18-character shape with optional `X`/`x` check character) is
rejected by the address validity filter, the exclusion firing before any
inclusion rule is consulted. -/
theorem id_shaped_text_never_address (t : Text) (h : idShaped15or18 t = true) :
    is_valid_address_text t = false := by
  obtain ⟨hh, hl⟩ := idShaped_nonspace_ends t h
  have hstrip : pyStrip t = t := pyStrip_eq_self t hh hl
  unfold is_valid_address_text
  rw [hstrip]
  simp [h]

theorem id_shaped_text_never_address_witness :
    is_valid_address_text (tl "110101199001011234") = false :=
  id_shaped_text_never_address (tl "110101199001011234") (by decide)

end SfzOcr

namespace SfzOcr

theorem chineseScore_pos_of_extra (combined : Text)
    (h : ([tl "住址", tl "签发机关", tl "有效期限"].any
        (fun k => infixOf k combined)) = true) :
    0 < keywordScore chineseKeywords combined := by
  rw [List.any_eq_true] at h
  obtain ⟨k, hk, hinf⟩ := h
  have hmem : k ∈ chineseKeywords := by
    simp only [List.mem_cons, List.not_mem_nil, or_false] at hk
    rcases hk with rfl | rfl | rfl <;> simp [chineseKeywords]
  unfold keywordScore
  rw [List.length_pos]
  exact List.ne_nil_of_mem (List.mem_filter.mpr ⟨hmem, hinf⟩)

/-- C3: the classifier decides exactly as specified — foreign-keyword
count at least 2 gives foreign with ties on the version sub-scores
favouring new; otherwise any national indicator gives national with ties
on front/back favouring front; otherwise the national-front default — and
a block set carrying only national-front labels classifies as national
front. -/
theorem detect_card_type_spec :
    (∀ blocks, detect_card_type blocks = detectCardTypeSpec blocks) ∧
    detect_card_type c3Blocks = (tl "chinese", true) := by
  constructor
  · intro blocks
    unfold detect_card_type detectCardTypeSpec
    by_cases hf : 2 ≤ keywordScore foreignKeywords (combinedText blocks)
    · simp [hf]
    · by_cases hc : 0 < keywordScore chineseKeywords (combinedText blocks)
      · simp [hf, hc]
      · have hextra :
            ([tl "住址", tl "签发机关", tl "有效期限"].any
              (fun k => infixOf k (combinedText blocks))) = false := by
          by_contra hx
          rw [Bool.not_eq_false] at hx
          exact hc (chineseScore_pos_of_extra _ hx)
        simp [hf, hc, hextra]
  · decide

/-- C10: on every input the classifier returns a card type among exactly
chinese, foreign_new, foreign_old, and on the foreign types the returned
side flag is always true (the front/back sub-decision exists only for the
national card). -/
theorem detect_card_type_range (blocks : List TextBlock) :
    ((detect_card_type blocks).1 = tl "chinese" ∨
     (detect_card_type blocks).1 = tl "foreign_new" ∨
     (detect_card_type blocks).1 = tl "foreign_old") ∧
    ((detect_card_type blocks).1 = tl "chinese" ∨
     (detect_card_type blocks).2 = true) := by
  rcases hdt : detect_card_type blocks with ⟨ct, fr⟩
  simp only [detect_card_type] at hdt
  split_ifs at hdt <;> cases hdt <;> simp

end SfzOcr

namespace SfzOcr

attribute [local semireducible] Rat.add Rat.sub Rat.mul Rat.inv

set_option maxRecDepth 2000

theorem findIdPattern_shape : ∀ (t r : Text),
    findIdPattern t = some r → idShape18 r = true
  | [], r => by simp [findIdPattern]
  | c :: rest, r => by
    unfold findIdPattern
    by_cases h : idShape18 ((c :: rest).take 18) = true
    · rw [if_pos h]
      intro he
      cases he
      exact h
    · rw [if_neg h]
      exact findIdPattern_shape rest r

theorem nearbyIdSearch_shape (b : TextBlock) : ∀ (l : List TextBlock) (r : Text),
    nearbyIdSearch b l = some r → idShape18 r = true
  | [], r => by simp [nearbyIdSearch]
  | ob :: rest, r => by
    unfold nearbyIdSearch
    by_cases he : ob = b
    · rw [if_pos he]
      exact nearbyIdSearch_shape b rest r
    · rw [if_neg he]
      by_cases hy : |centerY ob - centerY b| < 50
      · rw [if_pos hy]
        cases hm : findIdPattern (pyStrip ob.text) with
        | some v =>
          intro hv
          cases hv
          exact findIdPattern_shape _ _ hm
        | none => exact nearbyIdSearch_shape b rest r
      · rw [if_neg hy]
        exact nearbyIdSearch_shape b rest r

theorem labelledIdPass_shape (all : List TextBlock) : ∀ (l : List TextBlock) (r : Text),
    labelledIdPass all l = some r → idShape18 r = true
  | [], r => by simp [labelledIdPass]
  | b :: rest, r => by
    unfold labelledIdPass
    by_cases hl : infixOf (tl "公民身份号码") (pyStrip b.text) = true
    · rw [if_pos hl]
      cases hm : findIdPattern (pyStrip b.text) with
      | some v =>
        intro hv
        cases hv
        exact findIdPattern_shape _ _ hm
      | none =>
        cases hn : nearbyIdSearch b all with
        | some v =>
          intro hv
          cases hv
          exact nearbyIdSearch_shape b all _ hn
        | none => exact labelledIdPass_shape all rest r
    · rw [if_neg hl]
      exact labelledIdPass_shape all rest r

theorem directIdScan_shape : ∀ (l : List TextBlock) (r : Text),
    directIdScan l = some r → idShape18 r = true
  | [], r => by simp [directIdScan]
  | b :: rest, r => by
    unfold directIdScan
    cases hm : findIdPattern (pyStrip b.text) with
    | some v =>
      intro hv
      cases hv
      exact findIdPattern_shape _ _ hm
    | none => exact directIdScan_shape rest r

/-- C4 counterexample: a block carries the citizen-ID label and the
labelled pass (same block, then blocks within 50px) finds nothing, yet
the function does not return null — the direct scan of all blocks still
runs, against the claim that it runs only when no labelled block exists. -/
theorem extract_id_number_label_claim_false :
    ((c4Blocks.any fun b => infixOf (tl "公民身份号码") (pyStrip b.text)) = true ∧
     labelledIdPass c4Blocks c4Blocks = none) ∧
    ¬ extract_id_number c4Blocks = none := by
  refine ⟨⟨by decide, by decide⟩, ?_⟩
  intro h
  have : extract_id_number c4Blocks = some (tl "110101199001011234") := by decide
  rw [this] at h
  cases h

/-- C4 amended: the locator first runs the labelled pass (same block, then
blocks within 50px of a labelled block, later labelled blocks next);
whenever that pass yields nothing — in particular when no labelled block
exists — it falls back to scanning all blocks directly; any returned
string matches the 18-character shape. -/
theorem extract_id_number_order (blocks : List TextBlock) :
    (extract_id_number blocks =
      match labelledIdPass blocks blocks with
      | some r => some r
      | none => directIdScan blocks) ∧
    ∀ r, extract_id_number blocks = some r → idShape18 r = true := by
  refine ⟨rfl, ?_⟩
  intro r h
  unfold extract_id_number at h
  cases hl : labelledIdPass blocks blocks with
  | some v =>
    rw [hl] at h
    cases h
    exact labelledIdPass_shape blocks blocks r hl
  | none =>
    rw [hl] at h
    exact directIdScan_shape blocks r h

theorem extract_id_number_order_witness :
    idShape18 (tl "110101199001011234") = true :=
  (extract_id_number_order c4Blocks).2 (tl "110101199001011234") (by decide)

end SfzOcr

namespace SfzOcr

attribute [local semireducible] Rat.add Rat.sub Rat.mul Rat.inv

set_option maxRecDepth 2000

theorem is_valid_name_not_excl (t : Text) (h : is_valid_name t = true) :
    (strategy3Excl.any fun w => t = w) = false ∧ 2 ≤ t.length ∧ t.length ≤ 5 := by
  refine ⟨?_, ?_, ?_⟩
  · by_contra hx
    rw [Bool.not_eq_false, List.any_eq_true] at hx
    obtain ⟨w, hw, hew⟩ := hx
    rw [decide_eq_true_eq] at hew
    subst hew
    simp only [strategy3Excl, List.mem_cons, List.not_mem_nil, or_false] at hw
    rcases hw with rfl | rfl | rfl | rfl | rfl | rfl | rfl <;>
      exact absurd h (by decide)
  · unfold is_valid_name at h
    by_cases h2 : t.isEmpty || t.length < 2 || 5 < t.length
    · rw [if_pos h2] at h; cases h
    · simp only [Bool.or_eq_true, decide_eq_true_eq, not_or] at h2
      omega
  · unfold is_valid_name at h
    by_cases h2 : t.isEmpty || t.length < 2 || 5 < t.length
    · rw [if_pos h2] at h; cases h
    · simp only [Bool.or_eq_true, decide_eq_true_eq, not_or] at h2
      omega

theorem nameStrategy3_eq_find : ∀ blocks : List TextBlock,
    nameStrategy3 blocks =
      (blocks.find? fun b => is_valid_name (pyStrip b.text)).map
        (fun b => pyStrip b.text)
  | [] => rfl
  | b :: rest => by
    by_cases h : is_valid_name (pyStrip b.text) = true
    · obtain ⟨hex, h2, h5⟩ := is_valid_name_not_excl _ h
      simp [nameStrategy3, List.find?_cons, h, hex, h2, h5]
    · simp [nameStrategy3, List.find?_cons, h, nameStrategy3_eq_find rest]

/-- C5: the name extractor tries the inline, label-proximity, and
format-fallback strategies in order with first success winning (hence null
when all fail); the label-proximity strategy returns the text of a
candidate block at minimal Euclidean centroid distance from the label
block; the fallback returns the first plausibly-named block. -/
theorem extract_name_smart_strategies (blocks : List TextBlock) :
    (extract_name_smart blocks =
      match nameStrategy1 blocks with
      | some n => some n
      | none =>
        match nameStrategy2 blocks with
        | some n => some n
        | none => nameStrategy3 blocks) ∧
    (∀ lb, findNameLabelBlock blocks = some lb →
      ∀ n, nameStrategy2 blocks = some n →
        ∃ p ∈ nameCandidates blocks lb, p.2 = n ∧
          ∀ q ∈ nameCandidates blocks lb,
            sqDist (center p.1) (center lb) ≤ sqDist (center q.1) (center lb)) ∧
    (nameStrategy3 blocks =
      (blocks.find? fun b => is_valid_name (pyStrip b.text)).map
        (fun b => pyStrip b.text)) := by
  refine ⟨rfl, ?_, nameStrategy3_eq_find blocks⟩
  intro lb hlb n hn
  unfold nameStrategy2 at hn
  rw [hlb] at hn
  have hn' : (argminBy (fun c => sqDist (center c.1) (center lb))
      (nameCandidates blocks lb)).map (·.2) = some n := hn
  cases ham : argminBy (fun c => sqDist (center c.1) (center lb))
      (nameCandidates blocks lb) with
  | none => rw [ham] at hn'; cases hn'
  | some m =>
    rw [ham] at hn'
    have hnn : m.2 = n := Option.some.inj hn'
    obtain ⟨hmem, hmin⟩ := argminBy_spec _ _ _ ham
    exact ⟨m, hmem, hnn, hmin⟩

theorem extract_name_smart_strategies_witness :
    ∃ p ∈ nameCandidates c5Blocks c5Label, p.2 = tl "张三" ∧
      ∀ q ∈ nameCandidates c5Blocks c5Label,
        sqDist (center p.1) (center c5Label) ≤ sqDist (center q.1) (center c5Label) :=
  (extract_name_smart_strategies c5Blocks).2.1 c5Label (by decide)
    (tl "张三") (by decide)

end SfzOcr

namespace SfzOcr

attribute [local semireducible] Rat.add Rat.sub Rat.mul Rat.inv

set_option maxRecDepth 4000

theorem dictGet_addressPhase_ne (d : Dict) (ab bl : List TextBlock) (k : Text)
    (h : k ≠ tl "address") :
    dictGet (addressPhase d ab bl) k = dictGet d k := by
  unfold addressPhase
  by_cases hc : (!dictHas d (tl "address") && !ab.isEmpty) = true
  · rw [if_pos hc]
    exact dictGet_dictSet_ne _ _ _ h _
  · rw [if_neg hc]

theorem dictGet_addDerivedBirth (d : Dict) :
    dictGet (addDerivedBirth d) (tl "birth") =
      match dictGet d (tl "birth") with
      | some b => some b
      | none =>
        match dictGet d (tl "id_number") with
        | some (.str idn) =>
          if idDeriveCheck idn then some (.str (deriveBirthFromId idn)) else none
        | _ => none := by
  unfold addDerivedBirth
  cases hb : dictGet d (tl "birth") with
  | some b =>
    have hhb : dictHas d (tl "birth") = true := by
      rw [dictHas_eq_isSome, hb]; rfl
    simp [hhb, hb]
  | none =>
    have hhb : dictHas d (tl "birth") = false := by
      rw [dictHas_eq_isSome, hb]; rfl
    cases hid : dictGet d (tl "id_number") with
    | none =>
      have hhid : dictHas d (tl "id_number") = false := by
        rw [dictHas_eq_isSome, hid]; rfl
      simp [hhb, hhid, hb]
    | some v =>
      have hhid : dictHas d (tl "id_number") = true := by
        rw [dictHas_eq_isSome, hid]; rfl
      cases v with
      | str idn =>
        by_cases hc : idDeriveCheck idn = true
        · simp [hhb, hhid, hid, hc, dictGet_dictSet_self]
        · simp [hhb, hhid, hid, hc, hb]
      | strList v => simp [hhb, hhid, hid, hb]
      | nat v => simp [hhb, hhid, hid, hb]
      | boolean v => simp [hhb, hhid, hid, hb]

/-- C6: in front extraction the birth field equals the directly-extracted
birth text when the per-block loop found one; otherwise it is derived by
slicing characters 7-14 (1-indexed) of the extracted 18-character ID
number into the CJK date form, and only then; with no ID number it stays
absent. On the spec's scenario (name and ID blocks only) the derived birth
is 1995年6月7日, leading zeros dropped. -/
theorem front_birth_derivation :
    (∀ blocks, dictGet (extractFront blocks) (tl "birth") =
      match dictGet (frontLoop blocks).info (tl "birth") with
      | some b => some b
      | none =>
        match dictGet (frontLoop blocks).info (tl "id_number") with
        | some (.str idn) =>
          if idDeriveCheck idn then some (.str (deriveBirthFromId idn)) else none
        | _ => none) ∧
    dictGet (extractFront c6Blocks) (tl "birth") = some (.str (tl "1995年6月7日")) := by
  constructor
  · intro blocks
    unfold extractFront
    rw [dictGet_addressPhase_ne _ _ _ _ (by decide)]
    exact dictGet_addDerivedBirth _
  · decide

end SfzOcr

namespace SfzOcr

attribute [local semireducible] Rat.add Rat.sub Rat.mul Rat.inv

set_option maxRecDepth 4000

/-- C7 counterexample: in debug mode the returned dict is not exactly
`{ocr_text, total_blocks}` — the code adds a third key `debug_mode`. -/
theorem debug_result_two_keys_false :
    extract_from_blocks c7Blocks true (tl "chinese") true ≠
      [(tl "ocr_text", .strList (c7Blocks.map (·.text))),
       (tl "total_blocks", .nat c7Blocks.length)] := by
  decide

/-- C7 amended: with the debug flag set the result equals exactly
`{ocr_text: the block texts in input order, total_blocks: the block count,
debug_mode: true}` for every block list, side and card-type hint — no
classification or field interpretation is performed. -/
theorem debug_result_exact (blocks : List TextBlock) (is_front : Bool)
    (card_type : Text) :
    extract_from_blocks blocks is_front card_type true =
      [(tl "ocr_text", .strList (blocks.map (·.text))),
       (tl "total_blocks", .nat blocks.length),
       (tl "debug_mode", .boolean true)] := rfl

/-- C8: on a fully-formed address — one containing a digit and ending in
neither a township/town character nor a bare village/group suffix — the
rule engine returns the address unchanged, so a second application changes
nothing either. -/
theorem apply_address_rules_complete_fixed (address name : Text)
    (blocks : List TextBlock)
    (hd : address.any isDigitC = true)
    (ht : townshipEnd address = false)
    (hv : villageEnd address = false) :
    apply_address_rules address name blocks = address ∧
    apply_address_rules (apply_address_rules address name blocks) name blocks =
      address := by
  have hdh := hasDigitHao_of_digit address hd
  have hstep : apply_address_rules address name blocks = address := by
    unfold apply_address_rules
    simp [ht, hv, hdh]
  exact ⟨hstep, by rw [hstep, hstep]⟩

theorem apply_address_rules_complete_fixed_witness :
    apply_address_rules (tl "北京市海淀区中关村1号") (tl "") [] =
      tl "北京市海淀区中关村1号" ∧
    apply_address_rules
      (apply_address_rules (tl "北京市海淀区中关村1号") (tl "") []) (tl "") [] =
      tl "北京市海淀区中关村1号" :=
  apply_address_rules_complete_fixed (tl "北京市海淀区中关村1号") (tl "") []
    (by decide) (by decide) (by decide)

/-- C9 (code bug): a lone address-label block makes front extraction store
the field "address" with the empty string — the result is exactly that
one-entry dict — and the old-foreign extractor emits a hard-coded
valid_until value even from an empty block list, so fields are neither
always non-empty nor always traceable to input blocks. -/
theorem front_extraction_empty_address_field :
    extract_from_blocks c9Blocks true (tl "chinese") false =
      [(tl "address", .str [])] ∧
    dictGet (extract_from_blocks [] true (tl "foreign_old") false)
      (tl "valid_until") = some (.str (tl "2023.09.15-2033.09.14")) := by
  constructor
  · decide
  · decide

end SfzOcr
